import Mathlib

/-!
Verification development for the LegiTrack update-ingestion pipeline.

Shallow embedding of the Go sources:
  * `storage.go`  — the SQLite-backed `Store` (table `updates`, column
    `hash TEXT UNIQUE`), operations `SaveUpdate`, `GetUpdateByHash`,
    `GetLatestUpdateBySource`, `GetUpdatesByDateRange`, `GetDailyStats`,
    `GetSourceStats`.
  * `main.go`     — the ingestion worker loop (`workerStep`) and the
    cron registration for the daily report (`reportSchedule`).
  * `scraper.go`  — `HTTPScraper.Scrape`, `BrowserScraper.Scrape` and
    `ScraperManager.Scrape`.

Modelling conventions:
  * Timestamps are `Nat` seconds since the epoch.  Every `Update` produced
    by the scrapers carries `time.Now().UTC()` formatted with the fixed-width
    RFC3339 layout, so the SQLite lexicographic `TEXT` comparison of the
    `fetched_at` column coincides with the numeric order of the underlying
    instants; `ORDER BY fetched_at DESC` is therefore modelled as sorting by
    the `Nat` timestamp, descending.  `date(fetched_at)` truncates to the
    UTC calendar day, modelled as division by 86400.
  * The Go driver binds every Go `string` as a SQLite `TEXT` value — an
    empty `Hash` is bound as the empty string, never as `NULL`.  The
    schema declares `hash TEXT UNIQUE`, and the SQLite `UNIQUE` constraint
    treats two empty-string values (unlike two `NULL`s) as equal, so an `INSERT`
    fails whenever any already-stored row has the same `hash` string,
    including the empty one.  `insertUpdate` models exactly this.
  * The store is the append-only list of rows, oldest first.
-/

namespace LegiTrack

/-- The `Update` struct of the Go sources: the result of one fetch attempt.
The raw body is a byte list; everything else is as in Go. -/
structure Update where
  sourceID : String
  url : String
  fetchedAt : Nat
  hash : String
  body : List Nat
  statusCode : Nat
  success : Bool
  retryCount : Nat
  errorDetail : String
  title : String
  summary : String
  contentType : String
deriving Repr, DecidableEq

/-- One persisted row of the `updates` table.  The `INSERT` in `SaveUpdate`
stores `body_size = len(update.Body)` instead of the body itself. -/
structure Row where
  sourceID : String
  url : String
  fetchedAt : Nat
  hash : String
  statusCode : Nat
  success : Bool
  retryCount : Nat
  errorDetail : String
  bodySize : Nat
  title : String
  summary : String
  contentType : String
deriving Repr, DecidableEq

/-- The column tuple bound by the `INSERT` statement of `SaveUpdate`. -/
def Update.toRow (u : Update) : Row :=
  { sourceID := u.sourceID
    url := u.url
    fetchedAt := u.fetchedAt
    hash := u.hash
    statusCode := u.statusCode
    success := u.success
    retryCount := u.retryCount
    errorDetail := u.errorDetail
    bodySize := u.body.length
    title := u.title
    summary := u.summary
    contentType := u.contentType }

/-- The `updates` table: append-only list of rows, oldest first. -/
abbrev Store := List Row

/-- `GetUpdateByHash` (storage.go): returns `(nil, false, nil)` for the empty
hash without querying; otherwise `SELECT ... WHERE hash = ? LIMIT 1`. -/
def GetUpdateByHash (s : Store) (h : String) : Option Row :=
  if h = "" then none else s.find? (fun r => r.hash == h)

/-- The raw `INSERT` of `SaveUpdate`.  The schema clause `hash TEXT UNIQUE`
rejects the insert when any stored row already carries the same `hash`
string; Go binds `u.hash` as `TEXT` (never `NULL`), so the constraint also
fires for a second empty-string hash. -/
def insertUpdate (s : Store) (u : Update) : Except String Store :=
  if s.any (fun r => r.hash == u.hash) then
    .error "UNIQUE constraint failed: updates.hash"
  else
    .ok (s ++ [u.toRow])

/-- `SaveUpdate` (storage.go): for a non-empty hash, first look the hash up
and silently skip the insert when a row already exists; otherwise run the
`INSERT`. -/
def SaveUpdate (s : Store) (u : Update) : Except String Store :=
  if u.hash ≠ "" then
    match GetUpdateByHash s u.hash with
    | some _ => .ok s
    | none => insertUpdate s u
  else
    insertUpdate s u

/-- Descending order on the stored fetch timestamp, the comparison behind
`ORDER BY fetched_at DESC`. -/
def fetchedDesc (a b : Row) : Prop := b.fetchedAt ≤ a.fetchedAt

instance : DecidableRel fetchedDesc := fun a b =>
  inferInstanceAs (Decidable (b.fetchedAt ≤ a.fetchedAt))

instance : IsTotal Row fetchedDesc :=
  ⟨fun a b => (Nat.le_total b.fetchedAt a.fetchedAt).elim Or.inl Or.inr⟩

instance : IsTrans Row fetchedDesc :=
  ⟨fun _ _ _ hab hbc => Nat.le_trans hbc hab⟩

/-- `GetLatestUpdateBySource` (storage.go):
`WHERE source_id = ? AND success = 1 ORDER BY fetched_at DESC LIMIT 1`,
returning `(nil, nil)` when no row matches. -/
def GetLatestUpdateBySource (s : Store) (sid : String) : Option Row :=
  (List.insertionSort fetchedDesc
    (s.filter (fun r => r.sourceID == sid && r.success))).head?

/-- `date(fetched_at)`: the UTC calendar day of a timestamp. -/
def dateOf (t : Nat) : Nat := t / 86400

/-- `GetUpdatesByDateRange` (storage.go):
`WHERE date(fetched_at) >= date(?) AND date(fetched_at) <= date(?)
 ORDER BY fetched_at DESC`, the bound parameters being the calendar days of
the two arguments. -/
def GetUpdatesByDateRange (s : Store) (startD endD : Nat) : List Row :=
  List.insertionSort fetchedDesc
    (s.filter (fun r => decide (startD ≤ dateOf r.fetchedAt) &&
                        decide (dateOf r.fetchedAt ≤ endD)))

/-- The row returned by the aggregate query of `GetDailyStats`. -/
structure DailyStats where
  totalUpdates : Nat
  successfulUpdates : Nat
  failedUpdates : Nat
  uniqueSources : Nat
  totalSize : Nat
deriving Repr, DecidableEq

/-- `GetDailyStats` (storage.go): `COUNT(*)`, `COUNT(CASE WHEN success = 1)`,
`COUNT(CASE WHEN success = 0)`, `COUNT(DISTINCT source_id)`, `SUM(body_size)`
over the rows of one calendar day (`SUM` of no rows is `NULL`, scanned as 0
through `sql.NullInt64`). -/
def GetDailyStats (s : Store) (d : Nat) : DailyStats :=
  let rows := s.filter (fun r => dateOf r.fetchedAt == d)
  { totalUpdates := rows.length
    successfulUpdates := (rows.filter (fun r => r.success)).length
    failedUpdates := (rows.filter (fun r => !r.success)).length
    uniqueSources := (rows.map (fun r => r.sourceID)).dedup.length
    totalSize := ((rows.map (fun r => r.bodySize)).sum) }

/-- One group of the `GROUP BY source_id` query of `GetSourceStats`. -/
structure SourceStats where
  totalUpdates : Nat
  successfulUpdates : Nat
  failedUpdates : Nat
  totalSize : Nat
deriving Repr, DecidableEq

/-- The aggregates of one `GROUP BY source_id` group. -/
def sourceAgg (rows : List Row) (sid : String) : SourceStats :=
  let mine := rows.filter (fun r => r.sourceID == sid)
  { totalUpdates := mine.length
    successfulUpdates := (mine.filter (fun r => r.success)).length
    failedUpdates := (mine.filter (fun r => !r.success)).length
    totalSize := (mine.map (fun r => r.bodySize)).sum }

/-- Descending order on the total of a group, the comparison behind
`ORDER BY total_updates DESC`. -/
def totalDesc (a b : String × SourceStats) : Prop :=
  b.2.totalUpdates ≤ a.2.totalUpdates

instance : DecidableRel totalDesc := fun a b =>
  inferInstanceAs (Decidable (b.2.totalUpdates ≤ a.2.totalUpdates))

instance : IsTotal (String × SourceStats) totalDesc :=
  ⟨fun a b => (Nat.le_total b.2.totalUpdates a.2.totalUpdates).elim Or.inl Or.inr⟩

instance : IsTrans (String × SourceStats) totalDesc :=
  ⟨fun _ _ _ hab hbc => Nat.le_trans hbc hab⟩

/-- The result rows of the SQL query of `GetSourceStats`: one group per distinct
`source_id` of the day, `ORDER BY total_updates DESC`. -/
def sourceStatsRows (s : Store) (d : Nat) : List (String × SourceStats) :=
  let rows := s.filter (fun r => dateOf r.fetchedAt == d)
  List.insertionSort totalDesc
    ((rows.map (fun r => r.sourceID)).dedup.map (fun sid => (sid, sourceAgg rows sid)))

/-- Lexicographic comparison of character code lists. -/
def charsLe : List Char → List Char → Bool
  | [], _ => true
  | _ :: _, [] => false
  | a :: as, b :: bs =>
    if a.toNat < b.toNat then true
    else if b.toNat < a.toNat then false
    else charsLe as bs

/-- Executable lexicographic order on strings. -/
def strLe (a b : String) : Bool := charsLe a.data b.data

/-- Ascending order on the source id, used to model a Go map canonically. -/
def keyAsc (a b : String × SourceStats) : Prop := strLe a.1 b.1 = true

instance : DecidableRel keyAsc := fun a b =>
  inferInstanceAs (Decidable (strLe a.1 b.1 = true))

/-- `GetSourceStats` (storage.go) scans the ordered SQL rows into a Go
`map[string]map[string]interface\x7b\x7d`.  A Go map has no defined iteration
order (it is deliberately randomised), so the scan order is erased; the map
is modelled canonically as the association list of its entries sorted by
key. -/
def GetSourceStats (s : Store) (d : Nat) : List (String × SourceStats) :=
  List.insertionSort keyAsc (sourceStatsRows s d)

/-- Executable check that a stats list is ordered by total, descending. -/
def orderedByTotalDesc : List (String × SourceStats) → Bool
  | [] => true
  | p :: t => t.all (fun q => q.2.totalUpdates ≤ p.2.totalUpdates) && orderedByTotalDesc t

/-- What the ingestion worker did with one dequeued `Update` (observable in
the logs): skipped it as a duplicate, saved it, or hit a save error. -/
inductive WorkerAction where
  | skippedDup
  | saved
  | saveFailed
deriving Repr, DecidableEq

/-- The `storage.SaveUpdate` call of the worker loop (main.go): a save error
is logged and the loop continues with the store unchanged. -/
def saveStep (s : Store) (u : Update) : Store × WorkerAction :=
  match SaveUpdate s u with
  | .ok s2 => (s2, .saved)
  | .error _ => (s, .saveFailed)

/-- One iteration of the worker goroutine in `main.go`: for a non-empty
hash, look the hash up; skip when a row exists whose fetch time is not
before (`!existingUpdate.FetchedAt.Before(update.FetchedAt)`) the new one;
otherwise fall through to `SaveUpdate`. -/
def workerStep (s : Store) (u : Update) : Store × WorkerAction :=
  if u.hash ≠ "" then
    match GetUpdateByHash s u.hash with
    | some ex =>
      if ¬ ex.fetchedAt < u.fetchedAt then (s, .skippedDup)
      else saveStep s u
    | none => saveStep s u
  else
    saveStep s u

/-- Number of stored rows carrying a given hash string. -/
def countHash (s : Store) (h : String) : Nat :=
  (s.filter (fun r => r.hash == h)).length

/-- The `Source` struct of the Go sources: one configured endpoint. -/
structure Source where
  id : String
  url : String
  cron : String
  jsRendered : Bool
  maxRetries : Nat
  timeoutNs : Nat
deriving Repr, DecidableEq

/-- Outcome of the external HTTP machinery during one `HTTPScraper.Scrape`
call, in the order the Go code consults it:
  * `reqError`: `http.NewRequestWithContext` fails (malformed source URL —
    e.g. `"://bad"` — independent of the context state);
  * `doError`: `h.client.Do` fails (connection error, timeout, cancelled
    context);
  * `readError`: the response arrives with a status code but `io.ReadAll`
    fails on the body;
  * `ok`: the full body is read. -/
inductive FetchResult where
  | reqError
  | doError (msg : String)
  | readError (status : Nat) (msg : String)
  | ok (status : Nat) (body : List Nat)
deriving Repr, DecidableEq

/-- `HTTPScraper.Scrape` (scraper.go), parametrised by the digest function
(`sha256.Sum256` hex-encoded in Go).  Returns the list of `Update`s sent to
the `out` channel and whether a non-nil error was returned.  On a request
construction error the function returns before any send; on `Do`/`ReadAll`
errors it sends one failure `Update`; on success it sends one successful
`Update` carrying the body digest. -/
def httpScrape (digest : List Nat → String) (src : Source) (now : Nat)
    (res : FetchResult) : List Update × Bool :=
  match res with
  | .reqError => ([], true)
  | .doError m =>
    ([{ sourceID := src.id, url := src.url, fetchedAt := now, hash := ""
        body := [], statusCode := 0, success := false, retryCount := 0
        errorDetail := m, title := "", summary := "", contentType := "" }], true)
  | .readError c m =>
    ([{ sourceID := src.id, url := src.url, fetchedAt := now, hash := ""
        body := [], statusCode := c, success := false, retryCount := 0
        errorDetail := m, title := "", summary := "", contentType := "" }], true)
  | .ok c b =>
    ([{ sourceID := src.id, url := src.url, fetchedAt := now, hash := digest b
        body := b, statusCode := c, success := true, retryCount := 0
        errorDetail := "", title := "", summary := "", contentType := "" }], false)

/-- The error `Update` sent by `BrowserScraper.Scrape`. -/
def browserObs (src : Source) (now : Nat) : Update :=
  { sourceID := src.id, url := src.url, fetchedAt := now, hash := ""
    body := [], statusCode := 0, success := false, retryCount := 0
    errorDetail := "Browser scraping not implemented yet"
    title := "", summary := "", contentType := "" }

/-- `BrowserScraper.Scrape` (scraper.go): always sends the one placeholder
error `Update` and returns a non-nil error. -/
def browserScrape (src : Source) (now : Nat) : List Update × Bool :=
  ([browserObs src now], true)

/-- `ScraperManager.Scrape` (main.go): delegate on the Source field
`JSRendered` flag. -/
def managerScrape (digest : List Nat → String) (src : Source) (now : Nat)
    (res : FetchResult) : List Update × Bool :=
  if src.jsRendered then browserScrape src now
  else httpScrape digest src now res

/-- A parsed cron schedule of the six-field parser installed by
`cron.New(cron.WithSeconds())` (robfig/cron): fields are, in order, second,
minute, hour, day-of-month, month, day-of-week; `none` is the `*` wildcard
and `some n` a single literal value. -/
structure CronSchedule where
  sec : Option Nat
  minute : Option Nat
  hour : Option Nat
  dom : Option Nat
  month : Option Nat
  dow : Option Nat
deriving Repr, DecidableEq

/-- One cron field matches a clock value. -/
def fieldMatches (f : Option Nat) (v : Nat) : Bool :=
  match f with
  | none => true
  | some n => v == n

/-- A schedule fires at a given wall-clock instant. -/
def CronSchedule.firesAt (c : CronSchedule) (month dom dow hour minute sec : Nat) :
    Bool :=
  fieldMatches c.month month && fieldMatches c.dom dom &&
    fieldMatches c.dow dow && fieldMatches c.hour hour &&
    fieldMatches c.minute minute && fieldMatches c.sec sec

/-- The report trigger registered in `main.go`:
`scheduler.AddFunc("59 23 * * * *", ...)` under the seconds-enabled parser,
i.e. second 59, minute 23, every hour, every day. -/
def reportSchedule : CronSchedule :=
  { sec := some 59, minute := some 23, hour := none
    dom := none, month := none, dow := none }

/-- How often a schedule fires during one fixed calendar day: the number of
matching (hour, minute, second) instants. -/
def firingsInDay (c : CronSchedule) (month dom dow : Nat) : Nat :=
  ((List.range 24).map (fun h =>
    ((List.range 60).map (fun m =>
      ((List.range 60).filter (fun s => c.firesAt month dom dow h m s)).length)).sum)).sum

/-! ### Concrete fixtures used by witnesses and counterexamples -/

/-- A failed fetch of source `s1` with no computed hash, as built by the
error branches of `HTTPScraper.Scrape`. -/
def failObs (t : Nat) : Update :=
  { sourceID := "s1", url := "http://example.com", fetchedAt := t, hash := ""
    body := [], statusCode := 0, success := false, retryCount := 0
    errorDetail := "timeout", title := "", summary := "", contentType := "" }

/-- A successful observation of source `s1` with hash `h1`. -/
def obsH (t : Nat) : Update :=
  { sourceID := "s1", url := "http://example.com", fetchedAt := t, hash := "h1"
    body := [1, 2], statusCode := 200, success := true, retryCount := 0
    errorDetail := "", title := "", summary := "", contentType := "" }

/-- A stored failed row for source `s1` (fetch time 10). -/
def rowF : Row :=
  { sourceID := "s1", url := "http://example.com", fetchedAt := 10, hash := ""
    statusCode := 0, success := false, retryCount := 0, errorDetail := "timeout"
    bodySize := 0, title := "", summary := "", contentType := "" }

/-- A stored successful row for source `s1` (fetch time 3). -/
def rowS : Row :=
  { sourceID := "s1", url := "http://example.com", fetchedAt := 3, hash := "h0"
    statusCode := 200, success := true, retryCount := 0, errorDetail := ""
    bodySize := 2, title := "", summary := "", contentType := "" }

/-- A store whose most recent attempt for `s1` failed. -/
def store3 : Store := [rowF, rowS]

/-- A stored successful row for source `a` on day 0. -/
def rowA : Row :=
  { sourceID := "a", url := "http://a", fetchedAt := 5, hash := "ha"
    statusCode := 200, success := true, retryCount := 0, errorDetail := ""
    bodySize := 10, title := "", summary := "", contentType := "" }

/-- First stored successful row for source `b` on day 0. -/
def rowB1 : Row :=
  { sourceID := "b", url := "http://b", fetchedAt := 1, hash := "hb1"
    statusCode := 200, success := true, retryCount := 0, errorDetail := ""
    bodySize := 10, title := "", summary := "", contentType := "" }

/-- Second stored successful row for source `b` on day 0. -/
def rowB2 : Row :=
  { sourceID := "b", url := "http://b", fetchedAt := 2, hash := "hb2"
    statusCode := 200, success := true, retryCount := 0, errorDetail := ""
    bodySize := 10, title := "", summary := "", contentType := "" }

/-- A store with one row for source `a` and two rows for source `b`,
all on calendar day 0. -/
def storeC8 : Store := [rowA, rowB1, rowB2]

/-- A non-rendered source whose URL does not parse, so
`http.NewRequestWithContext` fails. -/
def srcPlain : Source :=
  { id := "s1", url := "://bad", cron := "0 * * * * *", jsRendered := false
    maxRetries := 0, timeoutNs := 0 }

/-- A rendered source, routed to `BrowserScraper.Scrape`. -/
def srcRendered : Source :=
  { id := "s2", url := "http://spa.example", cron := "0 * * * * *"
    jsRendered := true, maxRetries := 0, timeoutNs := 0 }

/-- A placeholder digest standing in for hex-encoded `sha256.Sum256`. -/
def digest0 : List Nat → String := fun _ => "d0"

/-! ### Claims -/

/-- Claim C2 (code bug): the spec says an Observation with an empty hash is
always inserted as a new row and `SaveUpdate` returns success, and that two
hash-less failures for the same source produce two rows.  On the code, the
first hash-less save inserts a row binding `hash = \x27\x27`; the second
violates the `UNIQUE` constraint on the `hash` column and `SaveUpdate`
returns an error, leaving a single row — also when reached through the
worker loop. -/
theorem c2_second_hashless_insert_fails :
    SaveUpdate [] (failObs 0) = .ok [(failObs 0).toRow] ∧
    SaveUpdate [(failObs 0).toRow] (failObs 1) =
      .error "UNIQUE constraint failed: updates.hash" ∧
    workerStep [(failObs 0).toRow] (failObs 1) =
      ([(failObs 0).toRow], WorkerAction.saveFailed) :=
  ⟨rfl, rfl, rfl⟩

/-- Claim C5, counterexample: a fetch whose HTTP request cannot even be
constructed (malformed source URL — not a cancelled context) fails, yet
zero Observations are written to the sink, refuting the claim that exactly
one Observation is written per invocation even when the fetch fails. -/
theorem c5_counterexample :
    (managerScrape digest0 srcPlain 0 FetchResult.reqError).1 = [] ∧
    (managerScrape digest0 srcPlain 0 FetchResult.reqError).2 = true :=
  ⟨rfl, rfl⟩

/-- Claim C8, counterexample: on a store with one row for source `a` and two
rows for source `b` on day 0, the SQL rows of `GetSourceStats` are ordered
by total descending, but the Go map the function returns erases that order:
the entries of the returned map (canonically, by key) are not in descending
total order. -/
theorem c8_counterexample :
    orderedByTotalDesc (GetSourceStats storeC8 0) = false ∧
    orderedByTotalDesc (sourceStatsRows storeC8 0) = true :=
  ⟨rfl, rfl⟩

/-- Claim C9 (code bug): the report trigger is registered with the six-field
expression `"59 23 * * * *"` under the seconds-enabled parser, which means
second 59, minute 23, every hour: it fires 24 times per day (e.g. at
00:23:59 and 01:23:59) and never during minute 59 of hour 23, contradicting
the intended one firing per day at 23:59. -/
theorem c9_report_trigger_fires_hourly :
    firingsInDay reportSchedule 1 1 1 = 24 ∧
    reportSchedule.firesAt 1 1 1 0 23 59 = true ∧
    reportSchedule.firesAt 1 1 1 1 23 59 = true ∧
    (List.range 60).all (fun s => !(reportSchedule.firesAt 1 1 1 23 59 s)) = true := by
  decide

/-! ### Helper lemmas on the store -/

/-- Appending one row changes the count of a hash by 0 or 1. -/
lemma countHash_append_one (s : Store) (r : Row) (h : String) :
    countHash (s ++ [r]) h = countHash s h + (if r.hash == h then 1 else 0) := by
  by_cases hr : r.hash == h <;>
    simp [countHash, List.filter_append, hr]

/-- A successful raw insert happens only when no stored row carries the
inserted hash, and appends exactly one row. -/
lemma insertUpdate_ok {s s2 : Store} {u : Update}
    (hok : insertUpdate s u = .ok s2) :
    s2 = s ++ [u.toRow] ∧ s.any (fun r => r.hash == u.hash) = false := by
  unfold insertUpdate at hok
  by_cases hany : s.any (fun r => r.hash == u.hash)
  · rw [if_pos hany] at hok
    exact absurd hok (by simp)
  · rw [if_neg hany] at hok
    exact ⟨(Except.ok.injEq _ _ ▸ hok.symm).symm ▸ rfl, by simpa using hany⟩

/-- A successful `SaveUpdate` either left the store unchanged (duplicate
hash skip) or performed the raw insert. -/
lemma saveUpdate_ok {s s2 : Store} {u : Update}
    (hok : SaveUpdate s u = .ok s2) :
    s2 = s ∨ insertUpdate s u = .ok s2 := by
  unfold SaveUpdate at hok
  by_cases hh : u.hash ≠ ""
  · rw [if_pos hh] at hok
    cases hfind : GetUpdateByHash s u.hash with
    | some ex =>
      rw [hfind] at hok
      left
      cases hok
      rfl
    | none =>
      rw [hfind] at hok
      right
      exact hok
  · rw [if_neg hh] at hok
    right
    exact hok

/-- One `SaveUpdate` in the worker loop raises the count of any hash to at
most `max (previous count) 1`. -/
lemma saveStep_countHash (s : Store) (u : Update) (h : String) :
    countHash ((saveStep s u).1) h ≤ max (countHash s h) 1 := by
  unfold saveStep
  cases hsv : SaveUpdate s u with
  | error e => exact Nat.le_max_left _ _
  | ok s2 =>
    simp only
    rcases saveUpdate_ok hsv with hsame | hins
    · subst hsame
      exact Nat.le_max_left _ _
    · obtain ⟨happ, hnone⟩ := insertUpdate_ok hins
      subst happ
      rw [countHash_append_one]
      by_cases hr : u.hash = h
      · have hzero : countHash s h = 0 := by
          have hall : ∀ r ∈ s, (r.hash == u.hash) = false := by
            simpa [List.any_eq_true] using hnone
          have : s.filter (fun r => r.hash == h) = [] := by
            refine List.filter_eq_nil_iff.mpr (fun r hrs => ?_)
            simpa [hr] using hall r hrs
          simp [countHash, this]
        simp [Update.toRow, hr, hzero]
      · simp [Update.toRow, hr, Nat.le_max_left]

/-- One full worker iteration raises the count of any hash to at most
`max (previous count) 1`. -/
lemma workerStep_countHash (s : Store) (u : Update) (h : String) :
    countHash ((workerStep s u).1) h ≤ max (countHash s h) 1 := by
  unfold workerStep
  by_cases hh : u.hash ≠ ""
  · rw [if_pos hh]
    cases hfind : GetUpdateByHash s u.hash with
    | some ex =>
      dsimp only
      by_cases hlt : ¬ ex.fetchedAt < u.fetchedAt
      · rw [if_pos hlt]
        exact Nat.le_max_left _ _
      · rw [if_neg hlt]
        exact saveStep_countHash s u h
    | none => exact saveStep_countHash s u h
  · rw [if_neg hh]
    exact saveStep_countHash s u h

/-- Claim C1: `SaveUpdate` is idempotent with respect to a non-empty content
hash — when a row with the hash already exists, the call returns success
with the store unchanged — and, whatever the order in which the ingestion
worker processes two Observations of equal non-empty hash, at most one row
with that hash exists afterwards. -/
theorem c1_save_idempotent_hash_unique :
    (∀ (s : Store) (u : Update), u.hash ≠ "" →
      (GetUpdateByHash s u.hash).isSome → SaveUpdate s u = .ok s) ∧
    (∀ (s : Store) (u1 u2 : Update) (h : String), h ≠ "" →
      u1.hash = h → u2.hash = h → countHash s h ≤ 1 →
      countHash ((workerStep ((workerStep s u1).1) u2).1) h ≤ 1) := by
  constructor
  · intro s u hne hsome
    unfold SaveUpdate
    rw [if_pos hne]
    cases hfind : GetUpdateByHash s u.hash with
    | some ex => rfl
    | none => rw [hfind] at hsome; simp at hsome
  · intro s u1 u2 h hne h1 h2 hc
    have hs1 := workerStep_countHash s u1 h
    have hs2 := workerStep_countHash ((workerStep s u1).1) u2 h
    omega

/-- Witness for C1 at a concrete store and pair of Observations. -/
theorem c1_witness :
    SaveUpdate [(obsH 0).toRow] (obsH 5) = .ok [(obsH 0).toRow] ∧
    countHash ((workerStep ((workerStep [] (obsH 0)).1) (obsH 5)).1) "h1" ≤ 1 :=
  ⟨c1_save_idempotent_hash_unique.1 [(obsH 0).toRow] (obsH 5)
      (by decide) (by decide),
   c1_save_idempotent_hash_unique.2 [] (obsH 0) (obsH 5) "h1"
      (by decide) rfl rfl (by decide)⟩

/-- The save path of the worker never reports a duplicate skip. -/
lemma saveStep_action_ne_skipped (s : Store) (u : Update) :
    (saveStep s u).2 ≠ WorkerAction.skippedDup := by
  unfold saveStep
  cases SaveUpdate s u <;> simp

/-- Claim C4: for an Observation with a non-empty hash the worker skips
persistence (leaving the store untouched) exactly when the hash lookup
finds a record whose fetch time is not earlier than the new fetch time;
otherwise it hands the Observation to the save path of the Store. -/
theorem c4_worker_skip_decision :
    ∀ (s : Store) (u : Update), u.hash ≠ "" →
    ((workerStep s u = (s, WorkerAction.skippedDup)) ↔
      (∃ ex, GetUpdateByHash s u.hash = some ex ∧ u.fetchedAt ≤ ex.fetchedAt)) ∧
    ((¬ ∃ ex, GetUpdateByHash s u.hash = some ex ∧ u.fetchedAt ≤ ex.fetchedAt) →
      workerStep s u = saveStep s u) := by
  intro s u hne
  unfold workerStep
  rw [if_pos hne]
  cases hfind : GetUpdateByHash s u.hash with
  | some ex =>
    dsimp only
    by_cases hlt : ¬ ex.fetchedAt < u.fetchedAt
    · rw [if_pos hlt]
      refine ⟨⟨fun _ => ⟨ex, rfl, Nat.not_lt.mp hlt⟩, fun _ => rfl⟩,
        fun hdup => absurd ⟨ex, rfl, Nat.not_lt.mp hlt⟩ hdup⟩
    · rw [if_neg hlt]
      have hlt2 : ex.fetchedAt < u.fetchedAt := not_not.mp hlt
      constructor
      · constructor
        · intro heq
          exact absurd (congrArg Prod.snd heq) (saveStep_action_ne_skipped s u)
        · intro hdup
          obtain ⟨ex2, hex2, hle⟩ := hdup
          cases hex2
          exfalso
          omega
      · intro _
        rfl
  | none =>
    dsimp only
    constructor
    · constructor
      · intro heq
        exact absurd (congrArg Prod.snd heq) (saveStep_action_ne_skipped s u)
      · rintro ⟨ex2, hex2, -⟩
        cases hex2
    · intro _
      rfl

/-- Witness for C4: a same-hash Observation that is not newer than the
stored record is skipped. -/
theorem c4_witness :
    workerStep [(obsH 10).toRow] (obsH 5) =
      ([(obsH 10).toRow], WorkerAction.skippedDup) :=
  ((c4_worker_skip_decision [(obsH 10).toRow] (obsH 5) (by decide)).1).mpr
    ⟨(obsH 10).toRow, by decide, by decide⟩

/-- Claim C3: the latest-by-source query returns a stored successful row of
the source that is maximal by fetch timestamp, and returns the explicit
none result exactly when the source has no successful row; it never returns
a failed row. -/
theorem c3_latest_is_successful :
    ∀ (s : Store) (sid : String),
    (∀ r : Row, GetLatestUpdateBySource s sid = some r →
      r ∈ s ∧ r.sourceID = sid ∧ r.success = true ∧
      ∀ r2 ∈ s, r2.sourceID = sid → r2.success = true →
        r2.fetchedAt ≤ r.fetchedAt) ∧
    (GetLatestUpdateBySource s sid = none ↔
      ∀ r ∈ s, r.sourceID = sid → r.success = false) := by
  intro s sid
  have hperm := List.perm_insertionSort fetchedDesc
    (s.filter (fun r => r.sourceID == sid && r.success))
  have hsorted := List.sorted_insertionSort fetchedDesc
    (s.filter (fun r => r.sourceID == sid && r.success))
  constructor
  · intro r hr
    obtain ⟨tl, ht⟩ : ∃ tl, List.insertionSort fetchedDesc
        (s.filter (fun r => r.sourceID == sid && r.success)) = r :: tl := by
      unfold GetLatestUpdateBySource at hr
      cases hcase : List.insertionSort fetchedDesc
          (s.filter (fun r => r.sourceID == sid && r.success)) with
      | nil => rw [hcase] at hr; simp at hr
      | cons a tl =>
        rw [hcase] at hr
        simp only [List.head?_cons, Option.some.injEq] at hr
        exact ⟨tl, by rw [hr]⟩
    have hrmem : r ∈ s.filter (fun r => r.sourceID == sid && r.success) :=
      hperm.subset (ht ▸ List.mem_cons_self r tl)
    obtain ⟨hrs, hrp⟩ := List.mem_filter.mp hrmem
    simp only [Bool.and_eq_true, beq_iff_eq] at hrp
    refine ⟨hrs, hrp.1, hrp.2, ?_⟩
    intro r2 hr2 hsid2 hsucc2
    have hmem2 : r2 ∈ s.filter (fun r => r.sourceID == sid && r.success) :=
      List.mem_filter.mpr ⟨hr2, by simp [hsid2, hsucc2]⟩
    have hmem3 : r2 ∈ r :: tl := ht ▸ hperm.symm.subset hmem2
    rcases List.mem_cons.mp hmem3 with heq | hmem4
    · exact heq ▸ Nat.le_refl _
    · exact List.rel_of_sorted_cons (ht ▸ hsorted) r2 hmem4
  · unfold GetLatestUpdateBySource
    rw [List.head?_eq_none_iff]
    constructor
    · intro hnil r hr hsid
      have h0 : (s.filter (fun r => r.sourceID == sid && r.success)).Perm
          ([] : List Row) := by
        rw [← hnil]
        exact hperm.symm
      have hall := List.filter_eq_nil_iff.mp h0.eq_nil
      simpa [hsid] using hall r hr
    · intro hall
      have hfil : s.filter (fun r => r.sourceID == sid && r.success) = [] := by
        refine List.filter_eq_nil_iff.mpr (fun r hr => ?_)
        by_cases hsid : r.sourceID = sid
        · simp [hsid, hall r hr hsid]
        · simp [hsid]
      exact List.Perm.eq_nil (hfil ▸ hperm)

/-- Witness for C3: on a store whose only rows for `s1` are one failure and
one older success, the query result is the successful row, which dominates
every successful row of the source. -/
theorem c3_witness :
    rowS ∈ store3 ∧ rowS.sourceID = "s1" ∧ rowS.success = true ∧
    ∀ r2 ∈ store3, r2.sourceID = "s1" → r2.success = true →
      r2.fetchedAt ≤ rowS.fetchedAt :=
  (c3_latest_is_successful store3 "s1").1 rowS (by decide)

/-- The day-range predicate collapses to day equality when both bounds are
the same day. -/
lemma dayRange_point (d x : Nat) :
    (decide (d ≤ x) && decide (x ≤ d)) = (x == d) := by
  by_cases h1 : d ≤ x <;> by_cases h2 : x ≤ d <;>
    simp [h1, h2] <;> omega

/-- Filtering a store on the single-day range equals filtering on day
equality. -/
lemma dateRange_point_filter (s : Store) (d : Nat) :
    s.filter (fun r => decide (d ≤ dateOf r.fetchedAt) &&
      decide (dateOf r.fetchedAt ≤ d)) =
    s.filter (fun r => dateOf r.fetchedAt == d) :=
  List.filter_congr (fun r _ => dayRange_point d (dateOf r.fetchedAt))

/-- The single-day range query is a permutation of the day-equality
filter of the store. -/
lemma getUpdatesByDateRange_point_perm (s : Store) (d : Nat) :
    (GetUpdatesByDateRange s d d).Perm
      (s.filter (fun r => dateOf r.fetchedAt == d)) :=
  dateRange_point_filter s d ▸ List.perm_insertionSort fetchedDesc _

/-- Claim C6: the date-range query returns exactly the rows whose fetch day
lies in the inclusive range, sorted most-recent-first by fetch timestamp;
for a single day `d` it returns exactly the rows of day `d`. -/
theorem c6_date_range_query :
    ∀ (s : Store) (a b d : Nat),
    (GetUpdatesByDateRange s a b).Perm
      (s.filter (fun r => decide (a ≤ dateOf r.fetchedAt) &&
                          decide (dateOf r.fetchedAt ≤ b))) ∧
    List.Sorted fetchedDesc (GetUpdatesByDateRange s a b) ∧
    (GetUpdatesByDateRange s d d).Perm
      (s.filter (fun r => dateOf r.fetchedAt == d)) ∧
    (GetUpdatesByDateRange s d d).length =
      (s.filter (fun r => dateOf r.fetchedAt == d)).length := by
  intro s a b d
  exact ⟨List.perm_insertionSort _ _, List.sorted_insertionSort _ _,
    getUpdatesByDateRange_point_perm s d,
    (getUpdatesByDateRange_point_perm s d).length_eq⟩

/-- Claim C7: the daily total equals the row count of the single-day range
query, and successful plus failed updates equal the total. -/
theorem c7_daily_stats_consistent :
    ∀ (s : Store) (d : Nat),
    (GetDailyStats s d).totalUpdates = (GetUpdatesByDateRange s d d).length ∧
    (GetDailyStats s d).successfulUpdates + (GetDailyStats s d).failedUpdates =
      (GetDailyStats s d).totalUpdates := by
  intro s d
  constructor
  · show (s.filter (fun r => dateOf r.fetchedAt == d)).length =
      (GetUpdatesByDateRange s d d).length
    exact (getUpdatesByDateRange_point_perm s d).length_eq.symm
  · show ((s.filter (fun r => dateOf r.fetchedAt == d)).filter
        (fun r => r.success)).length +
      ((s.filter (fun r => dateOf r.fetchedAt == d)).filter
        (fun r => !r.success)).length =
      (s.filter (fun r => dateOf r.fetchedAt == d)).length
    exact (List.length_eq_length_filter_add (fun r : Row => r.success)).symm

/-- Claim C5, amended: per invocation of a fetch variant, exactly one
Observation is written to the sink for every outcome — transport failure,
body-read failure, success, and always for the rendered variant — except
when the HTTP request itself cannot be constructed (malformed source URL),
in which case the plain variant writes nothing and returns an error. -/
theorem c5_one_observation_per_fetch :
    ∀ (digest : List Nat → String) (src : Source) (now : Nat)
      (res : FetchResult),
    (res ≠ FetchResult.reqError →
      ((managerScrape digest src now res).1).length = 1) ∧
    (src.jsRendered = true →
      ((managerScrape digest src now res).1).length = 1) ∧
    (src.jsRendered = false → res = FetchResult.reqError →
      (managerScrape digest src now res).1 = [] ∧
      (managerScrape digest src now res).2 = true) := by
  intro digest src now res
  cases hjs : src.jsRendered <;> cases res <;>
    simp [managerScrape, httpScrape, browserScrape, hjs]

/-- Witness for C5: a transport failure writes exactly one Observation; a
request-construction failure writes none. -/
theorem c5_witness :
    ((managerScrape digest0 srcPlain 0 (FetchResult.doError "net")).1).length = 1 ∧
    (managerScrape digest0 srcPlain 0 FetchResult.reqError).1 = [] :=
  ⟨(c5_one_observation_per_fetch digest0 srcPlain 0
      (FetchResult.doError "net")).1 (by decide),
   ((c5_one_observation_per_fetch digest0 srcPlain 0
      FetchResult.reqError).2.2 rfl rfl).1⟩

/-- Claim C10: for a rendered source the dispatcher delegates to the
browser variant, which always writes exactly the one placeholder failure
Observation (success false, empty hash, the fixed error detail) and
returns a non-nil error; hence a rendered source never produces a
successful Observation. -/
theorem c10_rendered_source_never_succeeds :
    ∀ (digest : List Nat → String) (src : Source) (now : Nat)
      (res : FetchResult),
    src.jsRendered = true →
    managerScrape digest src now res = ([browserObs src now], true) ∧
    (browserObs src now).success = false ∧
    (browserObs src now).hash = "" ∧
    (browserObs src now).errorDetail = "Browser scraping not implemented yet" ∧
    (∀ u ∈ (managerScrape digest src now res).1, u.success = false) := by
  intro digest src now res hjs
  refine ⟨by simp [managerScrape, hjs, browserScrape], rfl, rfl, rfl, ?_⟩
  intro u hu
  simp only [managerScrape, hjs, if_true, browserScrape,
    List.mem_singleton] at hu
  rw [hu]
  rfl

/-- Witness for C10 at a concrete rendered source. -/
theorem c10_witness :
    managerScrape digest0 srcRendered 0 (FetchResult.ok 200 [1]) =
      ([browserObs srcRendered 0], true) :=
  (c10_rendered_source_never_succeeds digest0 srcRendered 0
    (FetchResult.ok 200 [1]) rfl).1

/-- Composing two filters equals one filter on the conjunction of the two
predicates. -/
lemma filter_filter_and (s : List Row) (p q : Row → Bool) :
    (s.filter p).filter q = s.filter (fun r => p r && q r) := by
  induction s with
  | nil => rfl
  | cons r t ih =>
    by_cases hp : p r <;> by_cases hq : q r <;>
      simp [List.filter_cons, hp, hq, ih]

/-- Composing the two one-day filters equals one filter on the conjunction
of day and source predicates. -/
lemma filter_day_source (s : Store) (d : Nat) (sid : String) :
    (s.filter (fun r => dateOf r.fetchedAt == d)).filter
      (fun r => r.sourceID == sid) =
    s.filter (fun r => (dateOf r.fetchedAt == d) && (r.sourceID == sid)) :=
  filter_filter_and s _ _

/-- Composing the day and source filters with a third predicate equals one
filter on the three-way conjunction. -/
lemma filter_day_source_pred (s : Store) (d : Nat) (sid : String)
    (q : Row → Bool) :
    ((s.filter (fun r => dateOf r.fetchedAt == d)).filter
      (fun r => r.sourceID == sid)).filter q =
    s.filter (fun r => (dateOf r.fetchedAt == d) &&
      ((r.sourceID == sid) && q r)) := by
  rw [filter_day_source, filter_filter_and]
  exact List.filter_congr (fun r _ => Bool.and_assoc _ _ _)

/-- Membership in the map returned by `GetSourceStats` coincides with
membership in the grouped rows before either sort. -/
lemma mem_getSourceStats (s : Store) (d : Nat) (p : String × SourceStats) :
    p ∈ GetSourceStats s d ↔
    p ∈ (((s.filter (fun r => dateOf r.fetchedAt == d)).map
        (fun r => r.sourceID)).dedup.map
      (fun sid => (sid, sourceAgg (s.filter (fun r => dateOf r.fetchedAt == d)) sid))) := by
  unfold GetSourceStats sourceStatsRows
  rw [(List.perm_insertionSort keyAsc _).mem_iff,
    (List.perm_insertionSort totalDesc _).mem_iff]

/-- Claim C8, amended: the SQL rows behind `GetSourceStats` are grouped by
source for the single calendar day and ordered by total updates descending,
and every entry of the returned map carries the correct aggregates (total,
successful, failed, byte volume) for its source; but the returned Go map
itself is unordered, so the descending order is not a property of the
returned value. -/
theorem c8_source_stats_amended :
    ∀ (s : Store) (d : Nat),
    List.Sorted totalDesc (sourceStatsRows s d) ∧
    (∀ p ∈ GetSourceStats s d,
      p.2.totalUpdates = (s.filter (fun r =>
        (dateOf r.fetchedAt == d) && (r.sourceID == p.1))).length ∧
      p.2.successfulUpdates = (s.filter (fun r =>
        (dateOf r.fetchedAt == d) && ((r.sourceID == p.1) && r.success))).length ∧
      p.2.failedUpdates = (s.filter (fun r =>
        (dateOf r.fetchedAt == d) && ((r.sourceID == p.1) && !r.success))).length ∧
      p.2.successfulUpdates + p.2.failedUpdates = p.2.totalUpdates ∧
      p.2.totalSize = ((s.filter (fun r =>
        (dateOf r.fetchedAt == d) && (r.sourceID == p.1))).map
          (fun r => r.bodySize)).sum) ∧
    (∀ sid : String,
      (∃ st, (sid, st) ∈ GetSourceStats s d) ↔
        ∃ r ∈ s, dateOf r.fetchedAt = d ∧ r.sourceID = sid) := by
  intro s d
  refine ⟨List.sorted_insertionSort totalDesc _, ?_, ?_⟩
  · intro p hp
    rw [mem_getSourceStats] at hp
    obtain ⟨sid, hsid, hpe⟩ := List.mem_map.mp hp
    subst hpe
    refine ⟨?_, ?_, ?_, ?_, ?_⟩
    · show ((s.filter (fun r => dateOf r.fetchedAt == d)).filter
        (fun r => r.sourceID == sid)).length = _
      rw [filter_day_source]
    · show (((s.filter (fun r => dateOf r.fetchedAt == d)).filter
        (fun r => r.sourceID == sid)).filter (fun r => r.success)).length = _
      rw [filter_day_source_pred]
    · show (((s.filter (fun r => dateOf r.fetchedAt == d)).filter
        (fun r => r.sourceID == sid)).filter (fun r => !r.success)).length = _
      rw [filter_day_source_pred]
    · show ((((s.filter (fun r => dateOf r.fetchedAt == d)).filter
          (fun r => r.sourceID == sid))).filter (fun r => r.success)).length +
        ((((s.filter (fun r => dateOf r.fetchedAt == d)).filter
          (fun r => r.sourceID == sid))).filter (fun r => !r.success)).length =
        (((s.filter (fun r => dateOf r.fetchedAt == d)).filter
          (fun r => r.sourceID == sid))).length
      exact (List.length_eq_length_filter_add (fun r : Row => r.success)).symm
    · show (((s.filter (fun r => dateOf r.fetchedAt == d)).filter
        (fun r => r.sourceID == sid)).map (fun r => r.bodySize)).sum = _
      rw [filter_day_source]
  · intro sid
    constructor
    · rintro ⟨st, hst⟩
      rw [mem_getSourceStats] at hst
      obtain ⟨sid2, hsid2, hpe⟩ := List.mem_map.mp hst
      have hs2 : sid2 = sid := congrArg Prod.fst hpe
      subst hs2
      obtain ⟨r, hr, hre⟩ := List.mem_map.mp (List.mem_dedup.mp hsid2)
      obtain ⟨hrs, hrd⟩ := List.mem_filter.mp hr
      exact ⟨r, hrs, by simpa using hrd, hre⟩
    · rintro ⟨r, hr, hrd, hrs⟩
      refine ⟨sourceAgg (s.filter (fun r => dateOf r.fetchedAt == d)) sid, ?_⟩
      rw [mem_getSourceStats]
      refine List.mem_map.mpr ⟨sid, ?_, rfl⟩
      refine List.mem_dedup.mpr ?_
      exact List.mem_map.mpr
        ⟨r, List.mem_filter.mpr ⟨hr, by simp [hrd]⟩, hrs⟩

/-- The aggregates of source `b` on day 0 in the fixture store. -/
def stB : SourceStats :=
  { totalUpdates := 2, successfulUpdates := 2, failedUpdates := 0
    totalSize := 20 }

/-- Witness for C8 at the fixture store: the map entry of source `b` has
the correct aggregates. -/
theorem c8_witness :
    stB.totalUpdates = (storeC8.filter (fun r =>
      (dateOf r.fetchedAt == 0) && (r.sourceID == "b"))).length ∧
    stB.successfulUpdates = (storeC8.filter (fun r =>
      (dateOf r.fetchedAt == 0) && ((r.sourceID == "b") && r.success))).length ∧
    stB.failedUpdates = (storeC8.filter (fun r =>
      (dateOf r.fetchedAt == 0) && ((r.sourceID == "b") && !r.success))).length ∧
    stB.successfulUpdates + stB.failedUpdates = stB.totalUpdates ∧
    stB.totalSize = ((storeC8.filter (fun r =>
      (dateOf r.fetchedAt == 0) && (r.sourceID == "b"))).map
        (fun r => r.bodySize)).sum :=
  (c8_source_stats_amended storeC8 0).2.1 ("b", stB) (by decide)

end LegiTrack
